import Mathlib

/-!
Shallow embedding of the libp2p signed peer-record code (`peer/record.go`)
together with the spec-modelled collaborators it is written against: the
peer-identity binary codec, the signed Envelope, and the payload-type
registry.  Bytes are modelled as `List Nat`; machine `uint64` sequence
numbers are modelled as `Nat` (no arithmetic is performed on them).
-/

namespace Libp2p

/-- Errors returned by the operations in scope.  The Go code returns `error`
values; each sentinel or failure mode in scope gets one constructor. -/
inductive PError where
  | nilReceiver
  | malformedMessage
  | invalidPeerId
  | peerIdMismatch
  | invalidMultiaddr
deriving DecidableEq, Repr

/-- The bytes of a string, used for the fixed domain and payload-type
constants. -/
def strBytes (s : String) : List Nat := s.data.map Char.toNat

/-- Modelled from the spec: structural validity of a binary peer-identity
encoding ("malformed peer identity bytes" exist and fail to decode; the
real multihash well-formedness check is an out-of-scope collaborator).
Here a byte string is structurally valid iff it is nonempty. -/
def validIDBytes (b : List Nat) : Bool := !b.isEmpty

/-- Modelled from the spec: a peer identity, "derived from a public key,
treated as an opaque comparable identifier", carried as its structurally
valid binary encoding. -/
def ID : Type := { b : List Nat // validIDBytes b = true }

instance : DecidableEq ID := fun a b =>
  if h : a.val = b.val then isTrue (Subtype.ext h)
  else isFalse (fun hab => h (congrArg Subtype.val hab))

/-- Modelled from the spec: the binary identity encoding (`ID.MarshalBinary`
in the repository, outside `src/`): the identity's bytes, never failing. -/
def ID.MarshalBinary (id : ID) : Except PError (List Nat) := .ok id.val

/-- Modelled from the spec: decoding a binary peer identity
(`ID.UnmarshalBinary` in the repository, outside `src/`): fails exactly on
structurally invalid (malformed) byte strings. -/
def ID.UnmarshalBinary (bytes : List Nat) : Except PError ID :=
  if h : validIDBytes bytes = true then .ok ⟨bytes, h⟩
  else .error .invalidPeerId

/-- A multiaddr as the external go-multiaddr library exposes it at its
interface boundary: a value determined by its byte encoding. -/
structure Multiaddr where
  bytes : List Nat
deriving DecidableEq, Repr

/-- `Multiaddr.Bytes`: the byte encoding of the address. -/
def Multiaddr.Bytes (a : Multiaddr) : List Nat := a.bytes

/-- `Multiaddr.Equal`: address-level equality of the external library,
equality of the addresses' canonical encodings. -/
def Multiaddr.Equal (a b : Multiaddr) : Bool := a.bytes == b.bytes

/-- `ma.NewMultiaddrBytes`: parse a multiaddr from bytes, failing on byte
strings the external library rejects; which byte strings parse is the
library's business, so validity is a parameter `v`. -/
def NewMultiaddrBytes (v : List Nat → Bool) (b : List Nat) :
    Except PError Multiaddr :=
  if v b then .ok ⟨b⟩ else .error .invalidMultiaddr

/-- The wire message `pb.PeerRecord.AddressInfo`: one address entry holding
the address's byte encoding. -/
structure AddressInfo where
  multiaddr : List Nat
deriving DecidableEq, Repr

/-- The wire message `pb.PeerRecord`: `peer_id` bytes, the ordered address
entries, and the `seq` counter. -/
structure PbPeerRecord where
  peerId : List Nat
  addresses : List AddressInfo
  seq : Nat
deriving DecidableEq, Repr

/-- A length-prefixed chunk of the wire encoding. -/
def encChunk (b : List Nat) : List Nat := b.length :: b

/-- One step of the wire decoder: read a length-prefixed chunk, or fail on
truncated input. -/
def readChunk : List Nat → Option (List Nat × List Nat)
  | [] => none
  | n :: rest =>
      if n ≤ rest.length then some (rest.take n, rest.drop n) else none

/-- Read `n` length-prefixed chunks in order. -/
def readChunks : Nat → List Nat → Option (List (List Nat) × List Nat)
  | 0, rest => some ([], rest)
  | Nat.succ k, rest =>
      match readChunk rest with
      | none => none
      | some (c, rest1) =>
          match readChunks k rest1 with
          | none => none
          | some (cs, rest2) => some (c :: cs, rest2)

/-- The external serialization codec (`proto.Marshal` on `pb.PeerRecord`),
modelled at its interface boundary as the spec describes the wire format: a
length-delimited structured encoding of `peer_id`, the address list and
`seq`. -/
def protoMarshalPeerRecord (m : PbPeerRecord) : List Nat :=
  encChunk m.peerId
    ++ [m.addresses.length]
    ++ (m.addresses.map (fun a => encChunk a.multiaddr)).flatten
    ++ [m.seq]

/-- Parse a `pb.PeerRecord` wire message, `none` on truncated or otherwise
malformed wire bytes. -/
def parsePbPeerRecord (bytes : List Nat) : Option PbPeerRecord :=
  match readChunk bytes with
  | none => none
  | some (pid, rest1) =>
      match rest1 with
      | [] => none
      | n :: rest2 =>
          match readChunks n rest2 with
          | none => none
          | some (chunks, rest3) =>
              match rest3 with
              | [seq] => some ⟨pid, chunks.map AddressInfo.mk, seq⟩
              | _ => none

/-- The external codec's decoder (`proto.Unmarshal` on `pb.PeerRecord`):
inverse of `protoMarshalPeerRecord`, failing on malformed wire bytes. -/
def protoUnmarshalPeerRecord (bytes : List Nat) : Except PError PbPeerRecord :=
  match parsePbPeerRecord bytes with
  | none => .error .malformedMessage
  | some m => .ok m

/-- `PeerRecord` (source lines 83–95): a peer identity, its ordered public
addresses, and a `uint64` sequence counter. -/
structure PeerRecord where
  PeerID : ID
  Addrs : List Multiaddr
  Seq : Nat
deriving DecidableEq

/-- `addrsFromProtobuf` (source lines 203–213): parse each address entry in
order, silently skipping entries the multiaddr library rejects. -/
def addrsFromProtobuf (v : List Nat → Bool) :
    List AddressInfo → List Multiaddr
  | [] => []
  | addr :: rest =>
      match NewMultiaddrBytes v addr.multiaddr with
      | .error _ => addrsFromProtobuf v rest
      | .ok a => a :: addrsFromProtobuf v rest

/-- `addrsToProtobuf` (source lines 215–221): each address becomes one entry
holding its byte encoding, in order. -/
def addrsToProtobuf (addrs : List Multiaddr) : List AddressInfo :=
  addrs.map (fun a => ⟨a.Bytes⟩)

/-- `PeerRecord.MarshalRecord` (source lines 145–156): marshal the identity,
build the wire message, encode it. -/
def PeerRecord.MarshalRecord (r : PeerRecord) : Except PError (List Nat) :=
  match r.PeerID.MarshalBinary with
  | .error e => .error e
  | .ok idBytes =>
      .ok (protoMarshalPeerRecord ⟨idBytes, addrsToProtobuf r.Addrs, r.Seq⟩)

/-- The success path of `PeerRecord.UnmarshalRecord` (source lines 126–139):
decode the wire message, decode the identity, rebuild the record with the
parseable addresses. -/
def decodePeerRecord (v : List Nat → Bool) (bytes : List Nat) :
    Except PError PeerRecord :=
  match protoUnmarshalPeerRecord bytes with
  | .error e => .error e
  | .ok msg =>
      match ID.UnmarshalBinary msg.peerId with
      | .error e => .error e
      | .ok id =>
          .ok ⟨id, addrsFromProtobuf v msg.addresses, msg.seq⟩

/-- `PeerRecord.UnmarshalRecord` on a non-nil receiver, rendered with the
receiver's state made explicit: the method assigns all three fields on
success and returns early — fields untouched — on a decode error.  The
result pairs the receiver's post-state with the returned error. -/
def PeerRecord.UnmarshalRecordState (v : List Nat → Bool) (r : PeerRecord)
    (bytes : List Nat) : PeerRecord × Option PError :=
  match decodePeerRecord v bytes with
  | .error e => (r, some e)
  | .ok rec => (rec, none)

/-- `PeerRecord.UnmarshalRecord` (source lines 121–140): the receiver is a
pointer, `none` standing for nil; a nil receiver is rejected before any
decoding. -/
def PeerRecord.UnmarshalRecord (v : List Nat → Bool) (r : Option PeerRecord)
    (bytes : List Nat) : Option PeerRecord × Option PError :=
  match r with
  | none => (none, some .nilReceiver)
  | some rec =>
      let res := rec.UnmarshalRecordState v bytes
      (some res.1, res.2)

/-- `PeerRecordEnvelopeDomain` (source line 20). -/
def PeerRecordEnvelopeDomain : String := "libp2p-peer-record"

/-- `PeerRecordEnvelopePayloadType` (source line 24). -/
def PeerRecordEnvelopePayloadType : List Nat := strBytes "/libp2p/peer-record"

/-- A private key as the crypto collaborator exposes it; its behaviour
(identity derivation, public-key extraction, signing) enters through
function parameters. -/
structure PrivKey where
  bytes : List Nat
deriving DecidableEq, Repr

/-- Modelled from the spec: the signed Envelope (repository code outside
`src/`): the producer's public key, the payload-type tag, the raw payload
bytes, and the signature. -/
structure Envelope where
  publicKey : List Nat
  payloadType : List Nat
  rawPayload : List Nat
  signature : List Nat
deriving DecidableEq, Repr

/-- Modelled from the spec: the domain-separated signing message, "the
concatenation of length-prefixed `domain`, `payloadType`, and
`rawPayload`". -/
def makeUnsigned (domain : String) (payloadType payload : List Nat) :
    List Nat :=
  encChunk (strBytes domain) ++ encChunk payloadType ++ encChunk payload

/-- Modelled from the spec: `record.MakeEnvelopeWithRecord` (repository code
outside `src/`): serialize the record — propagating its error — sign the
domain-separated message, and return an Envelope whose public key is derived
from the private key.  `pubOf` and `sigOf` are the out-of-scope crypto
primitives. -/
def MakeEnvelopeWithRecord (pubOf : PrivKey → List Nat)
    (sigOf : PrivKey → List Nat → List Nat) (privKey : PrivKey)
    (domain : String) (payloadType : List Nat) (rec : PeerRecord) :
    Except PError Envelope :=
  match rec.MarshalRecord with
  | .error e => .error e
  | .ok payload =>
      .ok { publicKey := pubOf privKey
            payloadType := payloadType
            rawPayload := payload
            signature := sigOf privKey (makeUnsigned domain payloadType payload) }

/-- `PeerRecord.Sign` (source lines 160–169): derive the identity implied by
the private key (`IDFromPrivateKey`, repository code outside `src/`, passed
as the parameter `idOfKey`), fail with the identity-mismatch sentinel when
it differs from the record's `PeerID`, otherwise build the signed Envelope
under the fixed domain and payload type. -/
def PeerRecord.Sign (idOfKey : PrivKey → Except PError ID)
    (pubOf : PrivKey → List Nat) (sigOf : PrivKey → List Nat → List Nat)
    (r : PeerRecord) (privKey : PrivKey) : Except PError Envelope :=
  match idOfKey privKey with
  | .error e => .error e
  | .ok p =>
      if p ≠ r.PeerID then .error .peerIdMismatch
      else
        MakeEnvelopeWithRecord pubOf sigOf privKey PeerRecordEnvelopeDomain
          PeerRecordEnvelopePayloadType r

/-- Modelled from the spec: `Envelope.Marshal` (repository code outside
`src/`): wire serialization of the four Envelope fields. -/
def Envelope.Marshal (e : Envelope) : List Nat :=
  encChunk e.publicKey ++ encChunk e.payloadType ++ encChunk e.rawPayload
    ++ encChunk e.signature

/-- `PeerRecord.MarshalSigned` (source lines 173–179): sign, propagate the
error, otherwise marshal the Envelope. -/
def PeerRecord.MarshalSigned (idOfKey : PrivKey → Except PError ID)
    (pubOf : PrivKey → List Nat) (sigOf : PrivKey → List Nat → List Nat)
    (r : PeerRecord) (privKey : PrivKey) : Except PError (List Nat) :=
  match r.Sign idOfKey pubOf sigOf privKey with
  | .error e => .error e
  | .ok env => .ok env.Marshal

/-- The spec's words for `signAndMarshal`: the "convenience composition of
sign + Envelope marshal", stated as a composition to compare with the
source's `MarshalSigned`. -/
def signAndMarshal (idOfKey : PrivKey → Except PError ID)
    (pubOf : PrivKey → List Nat) (sigOf : PrivKey → List Nat → List Nat)
    (r : PeerRecord) (privKey : PrivKey) : Except PError (List Nat) :=
  (r.Sign idOfKey pubOf sigOf privKey).map Envelope.Marshal

/-- The field comparisons of `PeerRecord.Equal` once both pointers are known
non-nil (source lines 186–200): identity, then sequence number, then address
count, then the element-wise address loop. -/
def PeerRecord.equalFields (r other : PeerRecord) : Bool :=
  if r.PeerID ≠ other.PeerID then false
  else if r.Seq ≠ other.Seq then false
  else if r.Addrs.length ≠ other.Addrs.length then false
  else (r.Addrs.zip other.Addrs).all (fun p => p.1.Equal p.2)

/-- `PeerRecord.Equal` (source lines 182–201): both the receiver and the
argument are pointers (`none` standing for nil).  A nil argument compares
equal exactly to a nil receiver; with a non-nil argument a nil receiver is
dereferenced, which has no result (`none`, a panic in the source). -/
def PeerRecord.Equal (r other : Option PeerRecord) : Option Bool :=
  match other with
  | none => some r.isNone
  | some o =>
      match r with
      | none => none
      | some rec => some (rec.equalFields o)

/-- Modelled from the spec: the Payload Type Registry (repository code
outside `src/`): a mapping from a payload-type tag to a decoder producing a
fresh record instance from payload bytes, populated by registration. -/
structure PayloadTypeRegistry where
  entries : List (List Nat × (List Nat → Except PError PeerRecord))

/-- Modelled from the spec: `record.RegisterPayloadType` (repository code
outside `src/`): add the tag's decoder to the registry. -/
def RegisterPayloadType (reg : PayloadTypeRegistry) (tag : List Nat)
    (decode : List Nat → Except PError PeerRecord) : PayloadTypeRegistry :=
  ⟨(tag, decode) :: reg.entries⟩

/-- Modelled from the spec: the registry lookup used during envelope
consumption. -/
def lookupPayloadType (reg : PayloadTypeRegistry) (tag : List Nat) :
    Option (List Nat → Except PError PeerRecord) :=
  (reg.entries.find? (fun e => e.1 == tag)).map (fun e => e.2)

/-- The registry before any registration. -/
def emptyPayloadTypeRegistry : PayloadTypeRegistry := ⟨[]⟩

/-- The `init` function (source lines 15–17): at start-up, before any
lookup, the PeerRecord kind registers its payload-type tag with a decoder
for PeerRecord payloads. -/
def initPayloadTypeRegistry (v : List Nat → Bool) : PayloadTypeRegistry :=
  RegisterPayloadType emptyPayloadTypeRegistry PeerRecordEnvelopePayloadType
    (decodePeerRecord v)

/-- Pointer-receiver rendering of `MarshalRecord`: the Go method takes the
record by pointer, reads its fields and contains no assignment through the
receiver, so its translation returns the receiver's post-state — the
unchanged record — alongside the result (compare
`PeerRecord.UnmarshalRecordState`, whose body does assign the fields). -/
def PeerRecord.MarshalRecordP (r : PeerRecord) :
    Except PError (List Nat) × PeerRecord := (r.MarshalRecord, r)

/-- Pointer-receiver rendering of `Sign`; the method body reads `r.PeerID`
and passes the record on without assigning through the receiver. -/
def PeerRecord.SignP (idOfKey : PrivKey → Except PError ID)
    (pubOf : PrivKey → List Nat) (sigOf : PrivKey → List Nat → List Nat)
    (r : PeerRecord) (k : PrivKey) : Except PError Envelope × PeerRecord :=
  (r.Sign idOfKey pubOf sigOf k, r)

/-- Pointer-receiver rendering of `MarshalSigned`; no assignment through the
receiver in the source body. -/
def PeerRecord.MarshalSignedP (idOfKey : PrivKey → Except PError ID)
    (pubOf : PrivKey → List Nat) (sigOf : PrivKey → List Nat → List Nat)
    (r : PeerRecord) (k : PrivKey) : Except PError (List Nat) × PeerRecord :=
  (r.MarshalSigned idOfKey pubOf sigOf k, r)

/-- Pointer-receiver rendering of `Equal` for a non-nil receiver; the method
only reads both records. -/
def PeerRecord.EqualP (r : PeerRecord) (other : Option PeerRecord) :
    Option Bool × PeerRecord := (PeerRecord.Equal (some r) other, r)

/-- Concrete multiaddr validity used by the witnesses: nonempty bytes. -/
def v0 : List Nat → Bool := fun b => !b.isEmpty

/-- Concrete identity used by the witnesses. -/
def id1 : ID := ⟨[1], rfl⟩

/-- Concrete record used by the witnesses: one address, sequence number 7. -/
def rec1 : PeerRecord := ⟨id1, [⟨[4, 2]⟩], 7⟩

/-- Concrete initial receiver state used by the round-trip witness. -/
def rec0 : PeerRecord := ⟨⟨[2], rfl⟩, [], 0⟩

/-- Concrete identity derivation used by the witnesses: every key derives
`id1`. -/
def idp0 : PrivKey → Except PError ID := fun _ => .ok id1

/-- Concrete public-key extraction used by the witnesses. -/
def pub0 : PrivKey → List Nat := fun _ => []

/-- Concrete signing primitive used by the witnesses. -/
def sig0 : PrivKey → List Nat → List Nat := fun _ _ => []

/-- Concrete private key used by the witnesses. -/
def k0 : PrivKey := ⟨[]⟩

/-- The envelope `rec1.Sign idp0 pub0 sig0 k0` produces. -/
def env1 : Envelope :=
  { publicKey := []
    payloadType := PeerRecordEnvelopePayloadType
    rawPayload := protoMarshalPeerRecord ⟨[1], [⟨[4, 2]⟩], 7⟩
    signature := [] }

/-- Reading back a length-prefixed chunk recovers it and leaves the rest. -/
theorem readChunk_encChunk (b rest : List Nat) :
    readChunk (encChunk b ++ rest) = some (b, rest) := by
  simp [encChunk, readChunk, List.take_left, List.drop_left]

/-- Reading back a sequence of length-prefixed chunks recovers them. -/
theorem readChunks_enc (l : List (List Nat)) (rest : List Nat) :
    readChunks l.length ((l.map encChunk).flatten ++ rest) = some (l, rest) := by
  induction l generalizing rest with
  | nil => simp [readChunks]
  | cons a t ih =>
      simp only [List.map_cons, List.flatten_cons, List.length_cons, readChunks,
        List.append_assoc, readChunk_encChunk]
      rw [ih]

/-- The wire codec round-trips: decoding an encoded `pb.PeerRecord` message
yields the message back. -/
theorem protoUnmarshal_marshal (m : PbPeerRecord) :
    protoUnmarshalPeerRecord (protoMarshalPeerRecord m) = .ok m := by
  have hmap : m.addresses.map (fun a => encChunk a.multiaddr)
      = (m.addresses.map (fun a => a.multiaddr)).map encChunk := by
    rw [List.map_map]; rfl
  have h1 : protoMarshalPeerRecord m
      = encChunk m.peerId
        ++ (m.addresses.length
            :: (((m.addresses.map (fun a => a.multiaddr)).map encChunk).flatten
                ++ [m.seq])) := by
    simp [protoMarshalPeerRecord, hmap]
  have hlen : m.addresses.length
      = (m.addresses.map (fun a => a.multiaddr)).length := by
    rw [List.length_map]
  have heta : (m.addresses.map (fun a => a.multiaddr)).map AddressInfo.mk
      = m.addresses := by
    rw [List.map_map]
    have h : (AddressInfo.mk ∘ fun a : AddressInfo => a.multiaddr) = id := rfl
    rw [h, List.map_id]
  rw [protoUnmarshalPeerRecord, parsePbPeerRecord, h1, readChunk_encChunk]
  simp only [hlen, readChunks_enc, heta]

/-- Decoding an identity's own binary encoding recovers the identity. -/
theorem ID.unmarshal_marshal (id : ID) :
    ID.UnmarshalBinary id.val = .ok id := by
  unfold ID.UnmarshalBinary
  rw [dif_pos id.property]
  rfl

/-- The wire decoder fails only with the malformed-message error. -/
theorem protoUnmarshal_err (bytes : List Nat) (e : PError)
    (h : protoUnmarshalPeerRecord bytes = .error e) : e = .malformedMessage := by
  unfold protoUnmarshalPeerRecord at h
  cases hp : parsePbPeerRecord bytes <;> rw [hp] at h <;> cases h
  rfl

/-- Decoding the encoded address list recovers it when every address's bytes
parse back. -/
theorem addrsFromProtobuf_toProtobuf (v : List Nat → Bool)
    (addrs : List Multiaddr) (h : ∀ a ∈ addrs, v a.Bytes = true) :
    addrsFromProtobuf v (addrsToProtobuf addrs) = addrs := by
  induction addrs with
  | nil => rfl
  | cons a t ih =>
      have ha : v a.Bytes = true := h a (List.mem_cons_self a t)
      have ht : ∀ x ∈ t, v x.Bytes = true :=
        fun x hx => h x (List.mem_cons_of_mem a hx)
      simp only [addrsToProtobuf, List.map_cons, addrsFromProtobuf,
        NewMultiaddrBytes, Multiaddr.Bytes] at ha ⊢
      rw [if_pos ha]
      have heq : addrsFromProtobuf v (List.map (fun a => ⟨a.Bytes⟩) t) = t := by
        simpa [addrsToProtobuf] using ih ht
      simp only [Multiaddr.Bytes] at heq
      rw [heq]

/-- Address decoding is a filter-map: well-formed entries are kept in order,
unparsable entries are dropped. -/
theorem addrsFromProtobuf_filterMap (v : List Nat → Bool)
    (l : List AddressInfo) :
    addrsFromProtobuf v l = l.filterMap (fun a =>
      match NewMultiaddrBytes v a.multiaddr with
      | .ok m => some m
      | .error _ => none) := by
  induction l with
  | nil => rfl
  | cons a t ih =>
      rw [List.filterMap_cons]
      cases h : NewMultiaddrBytes v a.multiaddr <;>
        simp only [addrsFromProtobuf, h, ih]

/-- `MarshalRecord` never fails: its result is the encoded wire message. -/
theorem marshalRecord_eq (r : PeerRecord) :
    r.MarshalRecord = .ok (protoMarshalPeerRecord
      ⟨r.PeerID.val, addrsToProtobuf r.Addrs, r.Seq⟩) := rfl

/-- Decoding a marshalled record recovers the record when every address is
well-formed. -/
theorem decode_marshal (v : List Nat → Bool) (r : PeerRecord)
    (hwf : ∀ a ∈ r.Addrs, v a.Bytes = true) :
    decodePeerRecord v (protoMarshalPeerRecord
      ⟨r.PeerID.val, addrsToProtobuf r.Addrs, r.Seq⟩) = .ok r := by
  unfold decodePeerRecord
  rw [protoUnmarshal_marshal]
  simp only [ID.unmarshal_marshal, addrsFromProtobuf_toProtobuf v r.Addrs hwf]

/-- Address-level equality is reflexive. -/
theorem Multiaddr.equal_refl (a : Multiaddr) : a.Equal a = true := by
  simp [Multiaddr.Equal]

/-- The element-wise address comparison accepts a list zipped with itself. -/
theorem zip_self_all_equal (l : List Multiaddr) :
    (l.zip l).all (fun p => p.1.Equal p.2) = true := by
  induction l with
  | nil => rfl
  | cons a t ih =>
      simp only [List.zip_cons_cons, List.all_cons, Multiaddr.equal_refl,
        Bool.true_and, ih]

/-- The field comparison accepts a record compared with itself. -/
theorem equalFields_refl (r : PeerRecord) : r.equalFields r = true := by
  simp [PeerRecord.equalFields, zip_self_all_equal]

/-- The field comparison holds exactly for equal identities, equal sequence
numbers, and element-wise equal address lists. -/
theorem equalFields_iff (a b : PeerRecord) :
    a.equalFields b = true ↔
      (a.PeerID = b.PeerID ∧ a.Seq = b.Seq
        ∧ List.Forall₂ (fun x y : Multiaddr => x.Equal y = true)
            a.Addrs b.Addrs) := by
  unfold PeerRecord.equalFields
  by_cases h1 : a.PeerID = b.PeerID
  · rw [if_neg (not_not_intro h1)]
    by_cases h2 : a.Seq = b.Seq
    · rw [if_neg (not_not_intro h2)]
      by_cases h3 : a.Addrs.length = b.Addrs.length
      · rw [if_neg (not_not_intro h3)]
        constructor
        · intro hall
          refine ⟨h1, h2, List.forall₂_iff_zip.mpr ⟨h3, ?_⟩⟩
          intro x y hxy
          have := List.all_eq_true.mp hall (x, y) hxy
          simpa using this
        · rintro ⟨-, -, hf⟩
          have hz := List.forall₂_iff_zip.mp hf
          refine List.all_eq_true.mpr ?_
          intro p hp
          simpa using hz.2 hp
      · rw [if_pos h3]
        simp only [Bool.false_eq_true, false_iff]
        rintro ⟨-, -, hf⟩
        exact h3 hf.length_eq
    · rw [if_pos h2]
      simp only [Bool.false_eq_true, false_iff]
      rintro ⟨-, h2f, -⟩
      exact h2 h2f
  · rw [if_pos h1]
    simp only [Bool.false_eq_true, false_iff]
    rintro ⟨h1f, -, -⟩
    exact h1 h1f

/-- When the derived identity matches, `Sign` succeeds with the envelope
built from the fixed domain, the fixed payload type, and the marshalled
record. -/
theorem sign_eq (idOfKey : PrivKey → Except PError ID)
    (pubOf : PrivKey → List Nat) (sigOf : PrivKey → List Nat → List Nat)
    (r : PeerRecord) (k : PrivKey) (p : ID)
    (h : idOfKey k = .ok p) (hp : p = r.PeerID) :
    r.Sign idOfKey pubOf sigOf k = .ok
      { publicKey := pubOf k
        payloadType := PeerRecordEnvelopePayloadType
        rawPayload := protoMarshalPeerRecord
          ⟨r.PeerID.val, addrsToProtobuf r.Addrs, r.Seq⟩
        signature := sigOf k (makeUnsigned PeerRecordEnvelopeDomain
          PeerRecordEnvelopePayloadType (protoMarshalPeerRecord
            ⟨r.PeerID.val, addrsToProtobuf r.Addrs, r.Seq⟩)) } := by
  subst hp
  unfold PeerRecord.Sign
  rw [h]
  show (if r.PeerID ≠ r.PeerID then Except.error PError.peerIdMismatch
    else MakeEnvelopeWithRecord pubOf sigOf k PeerRecordEnvelopeDomain
      PeerRecordEnvelopePayloadType r) = _
  rw [if_neg (not_not_intro rfl)]
  rfl

/-- When the derived identity differs, `Sign` fails with the identity
mismatch sentinel. -/
theorem sign_mismatch (idOfKey : PrivKey → Except PError ID)
    (pubOf : PrivKey → List Nat) (sigOf : PrivKey → List Nat → List Nat)
    (r : PeerRecord) (k : PrivKey) (p : ID)
    (h : idOfKey k = .ok p) (hp : p ≠ r.PeerID) :
    r.Sign idOfKey pubOf sigOf k = .error .peerIdMismatch := by
  unfold PeerRecord.Sign
  rw [h]
  show (if p ≠ r.PeerID then Except.error PError.peerIdMismatch
    else MakeEnvelopeWithRecord pubOf sigOf k PeerRecordEnvelopeDomain
      PeerRecordEnvelopePayloadType r) = _
  rw [if_pos hp]

/-- Claim C1: for every PeerRecord and private key whose identity derivation
succeeds, `Sign` fails with the `ErrPeerIdMismatch` sentinel exactly when
the identity derived from the key differs from the record's `PeerID`, and
constructs a signed Envelope exactly when they are equal. -/
theorem sign_identity_enforcement (idOfKey : PrivKey → Except PError ID)
    (pubOf : PrivKey → List Nat) (sigOf : PrivKey → List Nat → List Nat)
    (r : PeerRecord) (k : PrivKey) (p : ID)
    (h : idOfKey k = .ok p) :
    (r.Sign idOfKey pubOf sigOf k = .error .peerIdMismatch ↔ p ≠ r.PeerID)
    ∧ ((r.Sign idOfKey pubOf sigOf k).isOk = true ↔ p = r.PeerID) := by
  by_cases hp : p = r.PeerID
  · rw [sign_eq idOfKey pubOf sigOf r k p h hp]
    constructor
    · constructor
      · intro hfalse; cases hfalse
      · intro hne; exact absurd hp hne
    · constructor
      · intro hok; exact hp
      · intro hok; rfl
  · rw [sign_mismatch idOfKey pubOf sigOf r k p h hp]
    constructor
    · constructor
      · intro hok; exact hp
      · intro hne; rfl
    · constructor
      · intro hfalse; cases hfalse
      · intro hpe; exact absurd hpe hp

/-- Witness for C1 at a concrete record, key and derivation. -/
theorem sign_identity_enforcement_witness :
    (rec1.Sign idp0 pub0 sig0 k0 = .error .peerIdMismatch ↔ id1 ≠ rec1.PeerID)
    ∧ ((rec1.Sign idp0 pub0 sig0 k0).isOk = true ↔ id1 = rec1.PeerID) :=
  sign_identity_enforcement idp0 pub0 sig0 rec1 k0 id1 rfl

/-- Claim C2: for every PeerRecord all of whose addresses are well-formed
(their byte encodings parse back as multiaddrs), deserializing the bytes
produced by `MarshalRecord` via `UnmarshalRecord` — from any prior receiver
state — succeeds and yields a record `Equal` to the original. -/
theorem marshal_unmarshal_equal (v : List Nat → Bool) (r r0 : PeerRecord)
    (hwf : ∀ a ∈ r.Addrs, v a.Bytes = true) :
    ∃ bytes, r.MarshalRecord = .ok bytes
      ∧ (r0.UnmarshalRecordState v bytes).2 = none
      ∧ PeerRecord.Equal (some (r0.UnmarshalRecordState v bytes).1) (some r)
          = some true := by
  refine ⟨protoMarshalPeerRecord ⟨r.PeerID.val, addrsToProtobuf r.Addrs, r.Seq⟩,
    rfl, ?_, ?_⟩
  · simp [PeerRecord.UnmarshalRecordState, decode_marshal v r hwf]
  · simp [PeerRecord.UnmarshalRecordState, decode_marshal v r hwf,
      PeerRecord.Equal, equalFields_refl]

/-- Witness for C2 at a concrete record with one well-formed address. -/
theorem marshal_unmarshal_equal_witness :
    ∃ bytes, rec1.MarshalRecord = .ok bytes
      ∧ (rec0.UnmarshalRecordState v0 bytes).2 = none
      ∧ PeerRecord.Equal (some (rec0.UnmarshalRecordState v0 bytes).1)
          (some rec1) = some true :=
  marshal_unmarshal_equal v0 rec1 rec0 (by decide)

/-- Claim C3: address decoding is a filter-map — well-formed entries are
kept in their original order, unparsable entries are silently dropped —
and `UnmarshalRecord` on a non-nil receiver succeeds exactly when the wire
message and the peer-identity bytes are structurally valid; when it fails,
the error is one of the two structural ones, never an address failure. -/
theorem unmarshal_lenient_addresses (v : List Nat → Bool) (r : PeerRecord)
    (bytes : List Nat) (l : List AddressInfo) :
    addrsFromProtobuf v l = l.filterMap (fun a =>
        match NewMultiaddrBytes v a.multiaddr with
        | .ok m => some m
        | .error _ => none)
    ∧ ((r.UnmarshalRecordState v bytes).2 = none ↔
        ∃ msg, protoUnmarshalPeerRecord bytes = .ok msg
          ∧ validIDBytes msg.peerId = true)
    ∧ (∀ e, (r.UnmarshalRecordState v bytes).2 = some e →
        e = PError.malformedMessage ∨ e = PError.invalidPeerId) := by
  refine ⟨addrsFromProtobuf_filterMap v l, ?_, ?_⟩
  · unfold PeerRecord.UnmarshalRecordState decodePeerRecord
    cases hp : protoUnmarshalPeerRecord bytes with
    | error e => simp
    | ok msg =>
        by_cases hv : validIDBytes msg.peerId = true
        · simp [ID.UnmarshalBinary, hv]
        · simp [ID.UnmarshalBinary, hv]
  · intro e
    unfold PeerRecord.UnmarshalRecordState decodePeerRecord
    cases hp : protoUnmarshalPeerRecord bytes with
    | error e2 =>
        intro h
        have h2 : e2 = e := by simpa using h
        subst h2
        exact Or.inl (protoUnmarshal_err bytes e2 hp)
    | ok msg =>
        by_cases hv : validIDBytes msg.peerId = true
        · simp [ID.UnmarshalBinary, hv]
        · simp only [ID.UnmarshalBinary, hv]
          intro h
          have h2 : PError.invalidPeerId = e := by simpa using h
          subst h2
          exact Or.inr rfl

/-- Claim C4: `Equal` returns true exactly for records with the same
identity, the same sequence number, and address sequences pairwise equal in
order by address-level equality; a nil record equals another only when both
are nil. -/
theorem equal_characterization (r other : Option PeerRecord) :
    PeerRecord.Equal r other = some true ↔
      ((r = none ∧ other = none) ∨
        ∃ a b, r = some a ∧ other = some b ∧ a.PeerID = b.PeerID
          ∧ a.Seq = b.Seq
          ∧ List.Forall₂ (fun x y : Multiaddr => x.Equal y = true)
              a.Addrs b.Addrs) := by
  cases other with
  | none =>
      cases r with
      | none => simp [PeerRecord.Equal, Option.isNone]
      | some a => simp [PeerRecord.Equal, Option.isNone]
  | some b =>
      cases r with
      | none => simp [PeerRecord.Equal]
      | some a =>
          rw [show PeerRecord.Equal (some a) (some b)
              = some (a.equalFields b) from rfl]
          constructor
          · intro h
            have hb : a.equalFields b = true := Option.some.inj h
            rcases (equalFields_iff a b).mp hb with ⟨g1, g2, g3⟩
            exact Or.inr ⟨a, b, rfl, rfl, g1, g2, g3⟩
          · rintro (⟨h, -⟩ | ⟨x, y, hx, hy, g1, g2, g3⟩)
            · cases h
            · obtain rfl := Option.some.inj hx
              obtain rfl := Option.some.inj hy
              rw [(equalFields_iff a b).mpr ⟨g1, g2, g3⟩]

/-- Claim C5: `MarshalSigned` is the composition of `Sign` with Envelope
marshalling — it returns exactly the marshalled envelope when `Sign`
succeeds and propagates the error, returning no bytes, when `Sign`
fails. -/
theorem marshalSigned_composition (idOfKey : PrivKey → Except PError ID)
    (pubOf : PrivKey → List Nat) (sigOf : PrivKey → List Nat → List Nat)
    (r : PeerRecord) (k : PrivKey) :
    r.MarshalSigned idOfKey pubOf sigOf k
        = signAndMarshal idOfKey pubOf sigOf r k
    ∧ (∀ env, r.Sign idOfKey pubOf sigOf k = .ok env →
        r.MarshalSigned idOfKey pubOf sigOf k = .ok env.Marshal)
    ∧ (∀ e, r.Sign idOfKey pubOf sigOf k = .error e →
        r.MarshalSigned idOfKey pubOf sigOf k = .error e) := by
  refine ⟨?_, ?_, ?_⟩
  · cases h : r.Sign idOfKey pubOf sigOf k <;>
      simp [PeerRecord.MarshalSigned, signAndMarshal, h, Except.map]
  · intro env he
    simp [PeerRecord.MarshalSigned, he]
  · intro e he
    simp [PeerRecord.MarshalSigned, he]

/-- Claim C6: every envelope `Sign` constructs carries the fixed payload
type tag of `"/libp2p/peer-record"` bytes, and its signature is computed
over the domain-separated message built from the fixed ASCII domain string
`"libp2p-peer-record"`, the fixed tag, and the marshalled record. -/
theorem sign_fixed_domain (idOfKey : PrivKey → Except PError ID)
    (pubOf : PrivKey → List Nat) (sigOf : PrivKey → List Nat → List Nat)
    (r : PeerRecord) (k : PrivKey) (env : Envelope)
    (h : r.Sign idOfKey pubOf sigOf k = .ok env) :
    PeerRecordEnvelopeDomain = "libp2p-peer-record"
    ∧ env.payloadType = PeerRecordEnvelopePayloadType
    ∧ ∃ payload, r.MarshalRecord = .ok payload ∧ env.rawPayload = payload
        ∧ env.signature = sigOf k (makeUnsigned PeerRecordEnvelopeDomain
            PeerRecordEnvelopePayloadType payload) := by
  have key : env.payloadType = PeerRecordEnvelopePayloadType
      ∧ env.rawPayload = protoMarshalPeerRecord
          ⟨r.PeerID.val, addrsToProtobuf r.Addrs, r.Seq⟩
      ∧ env.signature = sigOf k (makeUnsigned PeerRecordEnvelopeDomain
          PeerRecordEnvelopePayloadType (protoMarshalPeerRecord
            ⟨r.PeerID.val, addrsToProtobuf r.Addrs, r.Seq⟩)) := by
    cases hi : idOfKey k with
    | error e =>
        unfold PeerRecord.Sign at h
        rw [hi] at h
        cases h
    | ok p =>
        by_cases hp : p = r.PeerID
        · rw [sign_eq idOfKey pubOf sigOf r k p hi hp] at h
          obtain rfl := Except.ok.inj h
          exact ⟨rfl, rfl, rfl⟩
        · rw [sign_mismatch idOfKey pubOf sigOf r k p hi hp] at h
          cases h
  exact ⟨rfl, key.1,
    ⟨protoMarshalPeerRecord ⟨r.PeerID.val, addrsToProtobuf r.Addrs, r.Seq⟩,
      marshalRecord_eq r, key.2.1, key.2.2⟩⟩

/-- Witness for C6 at a concrete record, key and crypto primitives. -/
theorem sign_fixed_domain_witness :
    PeerRecordEnvelopeDomain = "libp2p-peer-record"
    ∧ env1.payloadType = PeerRecordEnvelopePayloadType
    ∧ ∃ payload, rec1.MarshalRecord = .ok payload ∧ env1.rawPayload = payload
        ∧ env1.signature = sig0 k0 (makeUnsigned PeerRecordEnvelopeDomain
            PeerRecordEnvelopePayloadType payload) :=
  sign_fixed_domain idp0 pub0 sig0 rec1 k0 env1 rfl

/-- Claim C7: `UnmarshalRecord` on an absent (nil) receiver returns the
nil-receiver error without decoding, for every input. -/
theorem unmarshal_nil_receiver (v : List Nat → Bool) (bytes : List Nat) :
    PeerRecord.UnmarshalRecord v none bytes = (none, some .nilReceiver) := rfl

/-- Claim C8: the start-up registration maps the fixed payload-type tag to
the PeerRecord decoder in the Payload Type Registry. -/
theorem init_registers_peer_record (v : List Nat → Bool) :
    lookupPayloadType (initPayloadTypeRegistry v) PeerRecordEnvelopePayloadType
      = some (decodePeerRecord v) := by
  simp [lookupPayloadType, initPayloadTypeRegistry, RegisterPayloadType,
    emptyPayloadTypeRegistry, List.find?]

/-- Claim C9: `MarshalRecord`, `Sign`, `MarshalSigned` and `Equal` leave the
receiver record unchanged, for every record and argument: in the
pointer-receiver renderings the post-state equals the pre-state. -/
theorem receiver_immutable (idOfKey : PrivKey → Except PError ID)
    (pubOf : PrivKey → List Nat) (sigOf : PrivKey → List Nat → List Nat)
    (r : PeerRecord) (k : PrivKey) (other : Option PeerRecord) :
    r.MarshalRecordP.2 = r
    ∧ (r.SignP idOfKey pubOf sigOf k).2 = r
    ∧ (r.MarshalSignedP idOfKey pubOf sigOf k).2 = r
    ∧ (r.EqualP other).2 = r :=
  ⟨rfl, rfl, rfl, rfl⟩

/-- Claim C10: when `UnmarshalRecord` on a non-nil receiver fails, the
receiver's fields are left exactly as they were. -/
theorem unmarshal_atomic_on_failure (v : List Nat → Bool) (r : PeerRecord)
    (bytes : List Nat) (e : PError)
    (h : (PeerRecord.UnmarshalRecord v (some r) bytes).2 = some e) :
    (PeerRecord.UnmarshalRecord v (some r) bytes).1 = some r := by
  cases hd : decodePeerRecord v bytes with
  | error e2 =>
      simp [PeerRecord.UnmarshalRecord, PeerRecord.UnmarshalRecordState, hd]
  | ok rec =>
      simp [PeerRecord.UnmarshalRecord, PeerRecord.UnmarshalRecordState, hd] at h

/-- Witness for C10 at a concrete receiver and a malformed input. -/
theorem unmarshal_atomic_on_failure_witness :
    (PeerRecord.UnmarshalRecord v0 (some rec1) []).1 = some rec1 :=
  unmarshal_atomic_on_failure v0 rec1 [] .malformedMessage rfl

end Libp2p
